import Mathlib

/-!
Shallow embedding of the SolanaVeil program
(src/contracts/programs/solana-veil/src): the pool deposit/withdraw
instructions, the nullifier double-spend guard, and the bridge
outbound/inbound message flow.  Machine integers are modelled as Nat with
explicit bounds; Rust checked arithmetic returns Option; fallible
instructions return Except.  Each instruction is modelled as one atomic
step: on error the caller keeps the old state (Solana rolls back the whole
transaction), so a failing call never mutates anything.
-/

namespace Veil

/-- Width bounds of the machine integers used by the program. -/
def u64Max : Nat := 2 ^ 64 - 1

def u128Max : Nat := 2 ^ 128 - 1

def u16Max : Nat := 2 ^ 16 - 1

/-- Rust u64 checked_add: some on no overflow, none on overflow. -/
def checkedAdd64 (a b : Nat) : Option Nat :=
  if a + b ≤ u64Max then some (a + b) else none

/-- Rust u64 checked_sub: some on no underflow. -/
def checkedSub64 (a b : Nat) : Option Nat :=
  if b ≤ a then some (a - b) else none

/-- Rust u128 checked_mul: some on no overflow past 2^128. -/
def checkedMul128 (a b : Nat) : Option Nat :=
  if a * b ≤ u128Max then some (a * b) else none

/-- Rust u128 checked_div: none exactly when the divisor is zero. -/
def checkedDiv128 (a b : Nat) : Option Nat :=
  if b = 0 then none else some (a / b)

/-- Rust `as u64` cast: truncation modulo 2^64. -/
def truncU64 (a : Nat) : Nat := a % 2 ^ 64

/--
Error type of the program: the union of SolanaVeilError (errors.rs) and
ErrorCode (errors.rs / verifier.rs) constructors reached by the modelled
instructions, plus two host-level outcomes: accountAlreadyInUse for an
Anchor init constraint on an account that already exists, and panicked for
a Rust unwrap of None.
-/
inductive VeilError where
  | insufficientFunds
  | invalidProof
  | nullifierAlreadySpent
  | invalidMerkleRoot
  | poolInactive
  | invalidFeeAmount
  | feeTooHigh
  | withdrawalAmountTooLow
  | calculationError
  | invalidTokenAccount
  | accountAlreadyInUse
  | bridgePaused
  | chainNotSupported
  | tokenNotSupported
  | tokenNotEnabled
  | invalidAmount
  | arithmeticOverflow
  | invalidExternalEmitter
  | invalidWormholeMessage
  | merkleTreeFull
  | panicked
  deriving DecidableEq, Repr

/-- Boolean success test for an instruction result. -/
def exOk {α : Type} : Except VeilError α → Bool
  | .ok _ => true
  | .error _ => false

instance {ε α : Type} [DecidableEq ε] [DecidableEq α] :
    DecidableEq (Except ε α)
  | .ok a, .ok b => decidable_of_iff (a = b) (by simp)
  | .error a, .error b => decidable_of_iff (a = b) (by simp)
  | .ok _, .error _ => isFalse (by simp)
  | .error _, .ok _ => isFalse (by simp)

/-! ## Ledger

Balances of the accounts touched by an instruction, keyed by an opaque
account key (Pubkey or token-account address).  Both the SPL-token branch
and the native-SOL branch of the source move funds with a transfer
primitive that fails on insufficient balance; we model both with
`ledgerTransfer`.
-/

abbrev Ledger := List (Nat × Nat)

def lookupBal (l : Ledger) (k : Nat) : Nat :=
  match l.find? (fun p => p.1 == k) with
  | some p => p.2
  | none => 0

def setBal (l : Ledger) (k v : Nat) : Ledger :=
  if l.any (fun p => p.1 == k) then
    l.map (fun p => if p.1 == k then (k, v) else p)
  else
    (k, v) :: l

/-- Move amt from src to dst; fails (none) when src lacks the funds. -/
def ledgerTransfer (l : Ledger) (src dst amt : Nat) : Option Ledger :=
  if amt ≤ lookupBal l src then
    let l1 := setBal l src (lookupBal l src - amt)
    some (setBal l1 dst (lookupBal l1 dst + amt))
  else
    none

/-! ## Pool, tree, nullifier and relayer state (state/mod.rs) -/

/-- Pool account fields used by deposit/withdraw (state/mod.rs Pool). -/
structure PoolState where
  denomination : Nat
  nextIndex : Nat
  maxDepth : Nat
  maxFeeBasisPoints : Nat
  minWithdrawalAmount : Nat
  isActive : Bool
  totalDeposited : Nat
  totalWithdrawn : Nat
  deriving DecidableEq, Repr

/-- MerkleTree account fields (state/mod.rs MerkleTree); the root is an
opaque 32-byte value modelled as Nat, compared only for equality. -/
structure TreeState where
  maxDepth : Nat
  numLeaves : Nat
  root : Nat
  deriving DecidableEq, Repr

/-- Nullifier account fields (state/mod.rs Nullifier). -/
structure NullifierRec where
  isSpent : Bool
  nullifierHash : Nat
  spentAt : Int
  recipient : Nat
  deriving DecidableEq, Repr

/-- Relayer statistics fields updated by withdraw (state/mod.rs Relayer). -/
structure RelayerStats where
  totalRelayed : Nat
  totalFees : Nat
  deriving DecidableEq, Repr

/--
State shared by the deposit and withdraw instructions of one pool: the
pool and tree accounts, the set of nullifier PDA accounts that exist
(keyed by nullifier hash; the PDA seeds are [nullifier_hash, pool] and a
single pool is modelled), the relayer statistics account, and the ledger
of balances.  poolKey is the key holding the vault balance (the pool PDA
for native SOL, the pool token account for SPL; both branches of the
source transfer out of it identically).
-/
structure ChainState where
  pool : PoolState
  tree : TreeState
  nullifiers : List (Nat × NullifierRec)
  relayerStats : RelayerStats
  ledger : Ledger
  poolKey : Nat
  deriving DecidableEq, Repr

/-- Does a nullifier PDA account for this hash already exist? -/
def nullifierExists (st : ChainState) (h : Nat) : Bool :=
  st.nullifiers.any (fun p => p.1 == h)

/-! ## Withdraw (instructions/withdraw.rs) -/

/-- Arguments of the withdraw instruction, with the accounts it resolves:
the recipient system account and the optional relayer account.  proofData
is the serialized zero-knowledge proof blob. -/
structure WithdrawArgs where
  proofData : List Nat
  root : Nat
  nullifierHash : Nat
  recipient : Nat
  fee : Nat
  relayer : Option Nat
  deriving DecidableEq, Repr

/-- The nullifier record as freshly zero-initialized by the Anchor init
constraint (withdraw.rs:223-234): all fields zeroed, is_spent false. -/
def freshNullifier : NullifierRec :=
  { isSpent := false, nullifierHash := 0, spentAt := 0, recipient := 0 }

/--
The check phase of the withdraw instruction (instructions/withdraw.rs),
everything up to the first state mutation.  The Anchor account phase runs
first, in struct order: the pool account constraint pool.is_active
(line 213), then init of the nullifier PDA seeded by [nullifier_hash, pool]
(lines 223-234), which fails when the account already exists, then the
constraint fee == 0 || relayer.is_some (line 263).  The handler then
re-checks is_active, compares the submitted root with the single current
tree root (lines 26-30), checks is_spent on the freshly-initialized
(zeroed) nullifier record (lines 32-35), and validates the fee
(lines 37-61).  Returns the net withdraw_amount.
-/
def withdrawChecks (st : ChainState) (a : WithdrawArgs) :
    Except VeilError Nat :=
  -- account phase: pool constraint (withdraw.rs:211-215)
  if !st.pool.isActive then .error .poolInactive
  -- account phase: init nullifier PDA (withdraw.rs:223-234)
  else if nullifierExists st a.nullifierHash then .error .accountAlreadyInUse
  -- account phase: relayer constraint (withdraw.rs:261-265)
  else if a.fee > 0 && a.relayer.isNone then .error .invalidFeeAmount
  -- handler: pool active check (withdraw.rs:22-24)
  else if !st.pool.isActive then .error .poolInactive
  -- handler: root equality against the single current root (withdraw.rs:26-30)
  else if a.root != st.tree.root then .error .invalidMerkleRoot
  -- handler: is_spent check (withdraw.rs:32-35) on the freshly
  -- zero-initialized nullifier record produced by the init constraint
  else if freshNullifier.isSpent then .error .nullifierAlreadySpent
  -- handler: fee validation (withdraw.rs:37-61); denomination is the
  -- source local for st.pool.denomination
  else if a.fee > st.pool.denomination then .error .invalidFeeAmount
  else
    match checkedMul128 st.pool.denomination st.pool.maxFeeBasisPoints with
    | none => .error .calculationError
    | some m =>
      match checkedDiv128 m 10000 with
      | none => .error .calculationError
      | some mf =>
        -- max_fee is the quotient cast as u64 (withdraw.rs:44-48)
        if a.fee > truncU64 mf then .error .feeTooHigh
        else
          match checkedSub64 st.pool.denomination a.fee with
          | none => .error .calculationError
          | some withdrawAmount =>
            if withdrawAmount < st.pool.minWithdrawalAmount then
              .error .withdrawalAmountTooLow
            else
              -- proof is logged, not verified (withdraw.rs:63-70)
              .ok withdrawAmount

/-- The effect phase of withdraw, entered once every check passed: mark
the nullifier spent, transfer the net amount and the fee, update relayer
statistics. -/
def spentNullifier (now : Int) (a : WithdrawArgs) : NullifierRec :=
  { isSpent := true, nullifierHash := a.nullifierHash,
    spentAt := now, recipient := a.recipient }

def withdrawEffects (st : ChainState) (now : Int) (a : WithdrawArgs)
    (withdrawAmount : Nat) : Except VeilError ChainState :=
  -- the nullifier is marked spent (withdraw.rs:72-77) before any
  -- transfer; each final state below carries the new record
  -- transfer withdraw_amount to recipient (withdraw.rs:79-153)
  match ledgerTransfer st.ledger st.poolKey a.recipient withdrawAmount with
  | none => .error .insufficientFunds
  | some led1 =>
    -- fee transfer to relayer if present (withdraw.rs:113-172)
    match a.relayer with
    | some relayerKey =>
      if a.fee > 0 then
        match ledgerTransfer led1 st.poolKey relayerKey a.fee with
        | none => .error .insufficientFunds
        | some led2 =>
          -- relayer stats (withdraw.rs:175-182)
          match checkedAdd64 st.relayerStats.totalRelayed withdrawAmount with
          | none => .error .calculationError
          | some tr =>
            match checkedAdd64 st.relayerStats.totalFees a.fee with
            | none => .error .calculationError
            | some tf =>
              .ok { st with
                    nullifiers := (a.nullifierHash, spentNullifier now a) :: st.nullifiers,
                    ledger := led2, relayerStats := { totalRelayed := tr, totalFees := tf } }
      else
        .ok { st with
              nullifiers := (a.nullifierHash, spentNullifier now a) :: st.nullifiers,
              ledger := led1 }
    | none =>
      .ok { st with
            nullifiers := (a.nullifierHash, spentNullifier now a) :: st.nullifiers,
            ledger := led1 }

/--
The withdraw instruction (instructions/withdraw.rs): the check phase
followed, only on success, by the effect phase.  The proof blob is logged,
never verified (withdraw.rs:63-70).  Token-account option plumbing of the
SPL branch is assumed well-formed; the SPL and native-SOL branches perform
the same two modelled ledger transfers.
-/
def withdraw (st : ChainState) (now : Int) (a : WithdrawArgs) :
    Except VeilError ChainState :=
  match withdrawChecks st a with
  | .error e => .error e
  | .ok withdrawAmount => withdrawEffects st now a withdrawAmount

/-! ## Deposit (instructions/deposit.rs) -/

/--
The deposit instruction (instructions/deposit.rs).  Checks the pool is
active (lines 16-19), moves exactly denomination from the user to the pool
vault failing on insufficient balance (lines 24-72; SPL and native SOL
branches both modelled as one ledger transfer), adds denomination to
total_deposited with checked_add (lines 74-76), assigns leaf_index =
pool.next_index (line 79), increments next_index and tree.num_leaves with
checked_add (lines 81-87), and logs the commitment for the off-chain
indexer — the on-chain root is not updated (lines 89-98).  There is no
capacity check against 2^max_depth.  Returns the new state and the
assigned leaf index.
-/
def deposit (st : ChainState) (userKey : Nat) (commitment : Nat) :
    Except VeilError (ChainState × Nat) :=
  if !st.pool.isActive then .error .poolInactive
  -- balance check against the source local denomination = st.pool.denomination
  else if lookupBal st.ledger userKey < st.pool.denomination then
    .error .insufficientFunds
  else
    match ledgerTransfer st.ledger userKey st.poolKey st.pool.denomination with
    | none => .error .insufficientFunds
    | some led1 =>
      match checkedAdd64 st.pool.totalDeposited st.pool.denomination with
      | none => .error .calculationError
      | some td =>
        -- leaf_index = pool.next_index (deposit.rs:79); the commitment
        -- itself is only logged for the indexer, the root is unchanged
        match checkedAdd64 st.pool.nextIndex 1 with
        | none => .error .calculationError
        | some ni =>
          match checkedAdd64 st.tree.numLeaves 1 with
          | none => .error .calculationError
          | some nl =>
            .ok ({ st with ledger := led1, pool := { st.pool with totalDeposited := td, nextIndex := ni }, tree := { st.tree with numLeaves := nl } }, st.pool.nextIndex)

/-! ## Bridge (instructions/bridge.rs, state/bridge.rs) -/

/-- A 32-byte array (Pubkey bytes, addresses, commitments). -/
def Bytes32 : Type := { l : List Nat // l.length = 32 }

instance : DecidableEq Bytes32 := fun a b =>
  decidable_of_iff (a.val = b.val) Subtype.ext_iff.symm

/-- Big-endian byte encoding of x on w bytes (Rust to_be_bytes for a
value in range). -/
def beBytes (w x : Nat) : List Nat :=
  (List.range w).map (fun i => x / 256 ^ (w - 1 - i) % 256)

/-- Big-endian read of n bytes at offset i (Rust from_be_bytes on the
slice, valid under the length guard). -/
def readBE (l : List Nat) (i n : Nat) : Nat :=
  ((l.drop i).take n).foldl (fun acc b => acc * 256 + b) 0

/-- Wormhole chain identifier of Solana, the constant
wormhole::CHAIN_ID_SOLANA of the external Wormhole SDK crate. -/
def solanaChainId : Nat := 1

/-- TokenConfig (state/bridge.rs). -/
structure TokenCfg where
  mint : Bytes32
  destTokenId : Nat
  minAmount : Nat
  maxAmount : Nat
  enabled : Bool
  deriving DecidableEq

/-- ChainConfig (state/bridge.rs): the fixed-capacity inline array of
token slots is modelled as the list of its occupied entries. -/
structure ChainCfg where
  chainId : Nat
  tokens : List TokenCfg
  deriving DecidableEq

/-- BridgeConfig fields used by the modelled instructions
(state/bridge.rs). -/
structure BridgeCfg where
  paused : Bool
  feeBasisPoints : Nat
  chains : List ChainCfg
  deriving DecidableEq

/-- ExternalBridgeEmitter (state/bridge.rs). -/
structure EmitterRec where
  chainId : Nat
  emitterAddress : Nat
  isActive : Bool
  deriving DecidableEq

/-- BridgeTransfer record fields written at outbound initiation
(bridge.rs:239-248); amount is the net amount. -/
structure BridgeTransferRec where
  destChainId : Nat
  amount : Nat
  mint : Bytes32
  destTokenId : Nat
  commitment : Bytes32
  destAddress : Bytes32
  wormholeSequence : Nat
  timestamp : Int
  deriving DecidableEq

/-- State shared by the bridge instructions: the config PDA, the
registered external emitter PDAs, the processed-VAA PDAs keyed by VAA
hash (with their stored timestamp), the local mirror tree, the token
ledger, the Wormhole emitter sequence counter, and the recorded outbound
transfers. -/
structure BridgeState where
  config : BridgeCfg
  emitters : List EmitterRec
  processed : List (Nat × Int)
  tree : TreeState
  ledger : Ledger
  sequence : Nat
  transfers : List BridgeTransferRec
  deriving DecidableEq

/-- find_token_config (bridge.rs:434-446): first chain entry with the
chain id, then first token entry with the mint. -/
def findTokenConfig (cfg : BridgeCfg) (chainId : Nat) (mint : Bytes32) :
    Except VeilError TokenCfg :=
  match cfg.chains.find? (fun c => c.chainId == chainId) with
  | none => .error .chainNotSupported
  | some chainCfg =>
    match chainCfg.tokens.find? (fun t => t.mint == mint) with
    | none => .error .tokenNotSupported
    | some tokenCfg => .ok tokenCfg

/-- The raw fee computation of initiate_cross_chain_transfer
(bridge.rs:157-161): (amount as u128).checked_mul(fee_bp).checked_div(10000),
each step unwrapped by the source. -/
def bridgeFeeRaw (amount feeBp : Nat) : Option Nat :=
  (checkedMul128 amount feeBp).bind (fun m => checkedDiv128 m 10000)

/-- The outbound Wormhole message payload (bridge.rs:197-209): payload id
100, net amount as 8 bytes BE, the Solana mint as 32 bytes, the Solana
chain id and the destination chain id as 2 bytes BE each, the destination
address, the commitment, and the nonce as 4 bytes BE. -/
def outboundPayload (net : Nat) (mint : Bytes32) (destChain : Nat)
    (destAddr commitment : Bytes32) (nonce : Nat) : List Nat :=
  100 :: (beBytes 8 net ++ mint.val ++ beBytes 2 solanaChainId ++
    beBytes 2 destChain ++ destAddr.val ++ commitment.val ++ beBytes 4 nonce)

/-- Modelled from the spec: crate::instructions::tree::add_leaf is called
by bridge.rs (lines 253-256 and 328-331) but no such function exists under
src/instructions/tree.rs.  Spec section 4.1 defines append(leaf): it fails
with TreeFull when leafCount equals 2^maxDepth, otherwise records the
logical leaf, incrementing the leaf count; root recomputation is delegated
to the external indexing mirror. -/
def addLeaf (t : TreeState) (leaf : Bytes32) : Except VeilError TreeState :=
  if t.numLeaves == 2 ^ t.maxDepth then .error .merkleTreeFull
  else
    let _ := leaf
    .ok { t with numLeaves := t.numLeaves + 1 }

/-- Arguments of initiate_cross_chain_transfer with the account keys it
moves funds between (bridge.rs:540-612). -/
structure InitiateArgs where
  amount : Nat
  destinationChainId : Nat
  destinationAddress : Bytes32
  commitment : Bytes32
  nonce : Nat
  mint : Bytes32
  userAcc : Nat
  vaultAcc : Nat
  treasuryAcc : Nat
  deriving DecidableEq

/--
initiate_cross_chain_transfer (bridge.rs:133-270).  Requires the bridge
not paused; looks up the chain and token config; requires the token
enabled and the amount within [min, max]; computes the fee with two
unwrapped checked operations and an as-u64 cast, and the net amount with
checked_sub; transfers amount from the user token account into the vault,
then the fee from the vault to the treasury; builds the 113-byte payload;
posts it to Wormhole, receiving the emitter sequence; records a pending
BridgeTransfer; and mirrors the commitment into the local tree with
add_leaf.  Returns the new state and the posted payload.
-/
def initiateFinish (st : BridgeState) (now : Int) (a : InitiateArgs)
    (tokenCfg : TokenCfg) (transferAmount : Nat) (led2 : Ledger) :
    Except VeilError (BridgeState × List Nat) :=
  -- build the payload (bridge.rs:197-209), post it to Wormhole receiving
  -- the emitter sequence (bridge.rs:211-236), record the pending transfer
  -- (bridge.rs:238-248) and mirror the commitment locally (bridge.rs:253-256)
  match addLeaf st.tree a.commitment with
  | .error e => .error e
  | .ok t1 =>
    .ok ({ st with
           ledger := led2,
           sequence := st.sequence + 1,
           transfers :=
             { destChainId := a.destinationChainId, amount := transferAmount,
               mint := a.mint, destTokenId := tokenCfg.destTokenId,
               commitment := a.commitment, destAddress := a.destinationAddress,
               wormholeSequence := st.sequence, timestamp := now } :: st.transfers,
           tree := t1 },
         outboundPayload transferAmount tokenCfg.mint a.destinationChainId
           a.destinationAddress a.commitment a.nonce)

def initiateCrossChainTransfer (st : BridgeState) (now : Int)
    (a : InitiateArgs) : Except VeilError (BridgeState × List Nat) :=
  if st.config.paused then .error .bridgePaused
  else
    match findTokenConfig st.config a.destinationChainId a.mint with
    | .error e => .error e
    | .ok tokenCfg =>
      if !tokenCfg.enabled then .error .tokenNotEnabled
      else if !(tokenCfg.minAmount ≤ a.amount && a.amount ≤ tokenCfg.maxAmount) then
        .error .invalidAmount
      else
        match bridgeFeeRaw a.amount st.config.feeBasisPoints with
        | none => .error .panicked
        | some feeRaw =>
          -- fee_amount is the source local truncU64 feeRaw (as u64 cast)
          match checkedSub64 a.amount (truncU64 feeRaw) with
          | none => .error .arithmeticOverflow
          | some transferAmount =>
            match ledgerTransfer st.ledger a.userAcc a.vaultAcc a.amount with
            | none => .error .insufficientFunds
            | some led1 =>
              if truncU64 feeRaw > 0 then
                match ledgerTransfer led1 a.vaultAcc a.treasuryAcc (truncU64 feeRaw) with
                | none => .error .insufficientFunds
                | some led2 => initiateFinish st now a tokenCfg transferAmount led2
              else
                initiateFinish st now a tokenCfg transferAmount led1

/-- A parsed inbound Wormhole VAA as exposed to the program: emitter
chain, emitter address (32 bytes, opaque), sequence and payload. -/
structure Vaa where
  emitterChain : Nat
  emitterAddress : Nat
  sequence : Nat
  payload : List Nat
  deriving DecidableEq

/-- Lookup of a registered external emitter PDA by its seeds
(chain id, emitter address). -/
def findEmitter (st : BridgeState) (chain addr : Nat) : Option EmitterRec :=
  st.emitters.find? (fun e => e.chainId == chain && e.emitterAddress == addr)

/-- Does a processed-VAA PDA for this hash already exist? -/
def processedContains (st : BridgeState) (vaaHash : Nat) : Bool :=
  st.processed.any (fun p => p.1 == vaaHash)

/--
process_incoming_transfer (bridge.rs:274-355).  Anchor account phase in
struct order: the external_emitter PDA seeded by the VAA emitter chain and
address must exist (bridge.rs:636-639), then the processed_vaa PDA seeded
by the VAA hash is initialized, failing when it already exists
(bridge.rs:651-659).  The handler then requires the bridge not paused,
re-derives and compares the emitter key and requires it active
(bridge.rs:288-299), requires payload length strictly greater than 113 and
payload id 100 (bridge.rs:304-307), parses the fields (bridge.rs:309-315),
requires the claimed source chain to equal the VAA emitter chain and the
target chain to be Solana (bridge.rs:317-318), mirrors the commitment into
the local tree with add_leaf, and stores the processed timestamp.  Tokens
are not released here.
-/
def processIncomingTransfer (st : BridgeState) (vaaHash : Nat) (v : Vaa)
    (now : Int) : Except VeilError BridgeState :=
  match findEmitter st v.emitterChain v.emitterAddress with
  | none => .error .invalidExternalEmitter
  | some em =>
    if processedContains st vaaHash then .error .accountAlreadyInUse
    else if st.config.paused then .error .bridgePaused
    else if !em.isActive then .error .invalidExternalEmitter
    else if hlen : 1 + 8 + 32 + 2 + 2 + 32 + 32 + 4 < v.payload.length then
      if v.payload.getD 0 0 != 100 then .error .invalidWormholeMessage
      -- source_chain_id is bytes 41..43 BE, target_chain_id bytes 43..45 BE
      else if readBE v.payload 41 2 != v.emitterChain then .error .invalidWormholeMessage
      else if readBE v.payload 43 2 != solanaChainId then .error .invalidWormholeMessage
      else
        match addLeaf st.tree ⟨(v.payload.drop 77).take 32, by
          simp only [List.length_take, List.length_drop]
          omega⟩ with
        | .error e => .error e
        | .ok t1 =>
          .ok { st with tree := t1, processed := (vaaHash, now) :: st.processed }
    else .error .invalidWormholeMessage

/-! ## Concrete example states used by scenario theorems and witnesses -/

/-- The scenario pool of spec section 8: denomination 1000, fee cap 200
basis points, minimum withdrawal 100, active. -/
def examplePool : PoolState :=
  { denomination := 1000, nextIndex := 0, maxDepth := 10,
    maxFeeBasisPoints := 200, minWithdrawalAmount := 100, isActive := true,
    totalDeposited := 0, totalWithdrawn := 0 }

def exampleTree : TreeState := { maxDepth := 10, numLeaves := 0, root := 7 }

/-- A live single-pool state: vault key 1 holding 100000, user key 4
holding 5000, no nullifier spent yet. -/
def exampleState : ChainState :=
  { pool := examplePool, tree := exampleTree, nullifiers := [],
    relayerStats := { totalRelayed := 0, totalFees := 0 },
    ledger := [(1, 100000), (4, 5000)], poolKey := 1 }

/-- Withdraw arguments against exampleState: the current root 7, fresh
nullifier hash 11, recipient key 2, relayer key 3. -/
def exampleArgs (p : List Nat) (fee : Nat) : WithdrawArgs :=
  { proofData := p, root := 7, nullifierHash := 11, recipient := 2,
    fee := fee, relayer := some 3 }

/-- The state after a successful fee-20 withdrawal from exampleState:
nullifier 11 recorded spent, recipient 2 credited the net 980, relayer 3
credited the fee 20, relayer statistics updated. -/
def exampleAfter : ChainState :=
  { pool := examplePool, tree := exampleTree,
    nullifiers := [(11, { isSpent := true, nullifierHash := 11, spentAt := 5, recipient := 2 })],
    relayerStats := { totalRelayed := 980, totalFees := 20 },
    ledger := [(3, 20), (2, 980), (1, 99000), (4, 5000)], poolKey := 1 }

/-- exampleState with nullifier hash 11 already spent. -/
def exampleSpentState : ChainState :=
  { exampleState with
    nullifiers := [(11, { isSpent := true, nullifierHash := 11, spentAt := 1, recipient := 9 })] }

/-- A second scenario pool exercising both boundaries at once: fee cap
500 bp of 1000 is 50 and minimum withdrawal 950, so fee 50 sits exactly
at the cap and leaves exactly the minimum net. -/
def exampleState2 : ChainState :=
  { exampleState with
    pool := { examplePool with maxFeeBasisPoints := 500, minWithdrawalAmount := 950 } }

/-- exampleState with the tree at full capacity: 2^10 = 1024 leaves. -/
def fullPoolState : ChainState :=
  { exampleState with
    tree := { exampleTree with numLeaves := 1024 },
    pool := { examplePool with nextIndex := 1024 } }

/-- exampleState with exactly one free slot left (1023 of 1024 used). -/
def lastSlotState : ChainState :=
  { exampleState with
    tree := { exampleTree with numLeaves := 1023 },
    pool := { examplePool with nextIndex := 1023 } }

/-! ## Sequence runners -/

/-- Run a list of withdraw calls (timestamp and arguments) in order
against an evolving state, counting the successful ones; a failed call
leaves the state untouched (Solana rolls the whole transaction back). -/
def runWithdrawCount : ChainState → List (Int × WithdrawArgs) → ChainState × Nat
  | st, [] => (st, 0)
  | st, c :: rest =>
    match withdraw st c.1 c.2 with
    | .ok st' =>
      ((runWithdrawCount st' rest).1, (runWithdrawCount st' rest).2 + 1)
    | .error _ => runWithdrawCount st rest

/-- Run a list of deposit calls (user key and commitment) in order,
collecting the assigned leaf indices; the whole run fails on the first
failing deposit. -/
def runDeposits : ChainState → List (Nat × Nat) → Except VeilError (ChainState × List Nat)
  | st, [] => .ok (st, [])
  | st, c :: rest =>
    match deposit st c.1 c.2 with
    | .error e => .error e
    | .ok (st', idx) =>
      match runDeposits st' rest with
      | .error e => .error e
      | .ok (stf, idxs) => .ok (stf, idx :: idxs)

/-- The root acceptance predicate in the words of the spec (section 4.1
isKnownRoot): accept any root within a bounded retention window of recent
roots, kept for comparison with the source behaviour, which compares
against the single current root only (withdraw.rs:26-30). -/
def specIsKnownRoot (recentRoots : List Nat) (root : Nat) : Bool :=
  recentRoots.contains root

/-! ## Concrete bridge example states -/

/-- A 32-byte mint key, all bytes 5. -/
def mint32 : Bytes32 := ⟨List.replicate 32 5, by simp⟩

/-- A 32-byte destination address, all bytes 6. -/
def addr32 : Bytes32 := ⟨List.replicate 32 6, by simp⟩

/-- A 32-byte commitment, all bytes 7. -/
def comm32 : Bytes32 := ⟨List.replicate 32 7, by simp⟩

/-- A live bridge state parametrized by the configured fee basis points:
one destination chain 2 with one enabled token (mint32, full u64 amount
range), one active registered emitter (chain 2, address 77), user token
account 4 fully funded, vault 1 and treasury 2 empty. -/
def exampleTokenCfg : TokenCfg :=
  { mint := mint32, destTokenId := 9, minAmount := 0,
    maxAmount := 18446744073709551615, enabled := true }

def exampleChainCfg : ChainCfg := { chainId := 2, tokens := [exampleTokenCfg] }

def exampleBridgeState (feeBp : Nat) : BridgeState :=
  { config := { paused := false, feeBasisPoints := feeBp, chains := [exampleChainCfg] },
    emitters := [{ chainId := 2, emitterAddress := 77, isActive := true }],
    processed := [], tree := { maxDepth := 20, numLeaves := 0, root := 0 },
    ledger := [(4, 18446744073709551615), (1, 0), (2, 0)],
    sequence := 0, transfers := [] }

/-- Outbound arguments to destination chain 2 for a given amount. -/
def exampleInitArgs (amt : Nat) : InitiateArgs :=
  { amount := amt, destinationChainId := 2, destinationAddress := addr32,
    commitment := comm32, nonce := 3, mint := mint32,
    userAcc := 4, vaultAcc := 1, treasuryAcc := 2 }

/-- An amount at which floor(amount * 65535 / 10000) exceeds 2^64, so the
as-u64 cast of the fee truncates. -/
def overflowAmount : Nat := 2815000000000000000

/-- A well-formed 114-byte inbound payload: id 100, source chain 2
(bytes 41..43), target chain 1 = Solana (bytes 43..45), zeroes elsewhere. -/
def examplePayload : List Nat :=
  (100 :: List.replicate 40 0) ++ [0, 2, 0, 1] ++ List.replicate 69 0

/-- An inbound VAA from the registered emitter (chain 2, address 77)
carrying examplePayload. -/
def exampleVaa : Vaa :=
  { emitterChain := 2, emitterAddress := 77, sequence := 0,
    payload := examplePayload }

/-- The example bridge state after VAA hash 500 has been processed. -/
def exampleBridgeProcessed : BridgeState :=
  { exampleBridgeState 10 with processed := [(500, 9)] }

/-! ## Helper inversion lemmas for the checked arithmetic -/

theorem checkedAdd64_some {a b m : Nat} (h : checkedAdd64 a b = some m) :
    m = a + b := by
  unfold checkedAdd64 at h
  split at h
  · exact (Option.some.injEq _ _ ▸ h).symm
  · exact Option.noConfusion h

theorem checkedSub64_some {a b m : Nat} (h : checkedSub64 a b = some m) :
    b ≤ a ∧ m = a - b := by
  unfold checkedSub64 at h
  split at h
  · exact ⟨by assumption, (Option.some.injEq _ _ ▸ h).symm⟩
  · exact Option.noConfusion h

theorem checkedMul128_some {a b m : Nat} (h : checkedMul128 a b = some m) :
    m = a * b := by
  unfold checkedMul128 at h
  split at h
  · exact (Option.some.injEq _ _ ▸ h).symm
  · exact Option.noConfusion h

theorem checkedDiv128_some {a b m : Nat} (h : checkedDiv128 a b = some m) :
    m = a / b := by
  unfold checkedDiv128 at h
  split at h
  · exact Option.noConfusion h
  · exact (Option.some.injEq _ _ ▸ h).symm

/-! ## Success inversion for withdraw -/

/-- Facts forced by a successful check phase: the nullifier PDA did not
exist, the submitted root equals the single current tree root, the fee
passed all three validation gates, and the returned net amount is
denomination minus fee. -/
theorem withdrawChecks_ok_facts (st : ChainState) (a : WithdrawArgs)
    (w : Nat) (h : withdrawChecks st a = .ok w) :
    st.pool.isActive = true ∧
    nullifierExists st a.nullifierHash = false ∧
    a.root = st.tree.root ∧
    a.fee ≤ st.pool.denomination ∧
    a.fee ≤ truncU64 (st.pool.denomination * st.pool.maxFeeBasisPoints / 10000) ∧
    st.pool.minWithdrawalAmount ≤ st.pool.denomination - a.fee ∧
    w = st.pool.denomination - a.fee := by
  unfold withdrawChecks at h
  split at h
  · exact Except.noConfusion h
  rename_i hactive
  rw [Bool.not_eq_true', Bool.not_eq_false] at hactive
  split at h
  · exact Except.noConfusion h
  rename_i hnull
  rw [Bool.not_eq_true] at hnull
  split at h
  · exact Except.noConfusion h
  split at h
  · exact Except.noConfusion h
  rename_i hroot
  simp only [bne_iff_ne, not_not] at hroot
  split at h
  · exact Except.noConfusion h
  split at h
  · exact Except.noConfusion h
  rename_i hfee1
  rw [Nat.not_lt] at hfee1
  split at h
  · exact Except.noConfusion h
  rename_i m hmul
  have hm := checkedMul128_some hmul
  subst hm
  split at h
  · exact Except.noConfusion h
  rename_i mf hdiv
  have hmf := checkedDiv128_some hdiv
  subst hmf
  split at h
  · exact Except.noConfusion h
  rename_i hfee2
  rw [Nat.not_lt] at hfee2
  split at h
  · exact Except.noConfusion h
  rename_i wa hsub
  obtain ⟨hfle, hwa⟩ := checkedSub64_some hsub
  subst hwa
  split at h
  · exact Except.noConfusion h
  rename_i hlow
  rw [Nat.not_lt] at hlow
  rw [Except.ok.injEq] at h
  subst h
  exact ⟨hactive, hnull, hroot, hfee1, hfee2, hlow, rfl⟩

/-- A successful effect phase pushes the freshly spent nullifier record
in front of the unchanged nullifier list. -/
theorem withdrawEffects_ok_nullifiers (st : ChainState) (now : Int)
    (a : WithdrawArgs) (w : Nat) (st' : ChainState)
    (h : withdrawEffects st now a w = .ok st') :
    st'.nullifiers =
      (a.nullifierHash,
        { isSpent := true, nullifierHash := a.nullifierHash,
          spentAt := now, recipient := a.recipient }) :: st.nullifiers := by
  unfold withdrawEffects at h
  repeat' split at h
  all_goals
    first
      | exact Except.noConfusion h
      | (rw [Except.ok.injEq] at h
         subst h
         rfl)

/-- Facts forced by a successful withdraw: the nullifier PDA did not
exist before and heads the nullifier list afterwards, the submitted root
equals the single current tree root, and the fee passed all three
validation gates. -/
theorem withdraw_ok_facts (st : ChainState) (now : Int) (a : WithdrawArgs)
    (st' : ChainState) (h : withdraw st now a = .ok st') :
    nullifierExists st a.nullifierHash = false ∧
    (∃ r, st'.nullifiers = (a.nullifierHash, r) :: st.nullifiers) ∧
    a.root = st.tree.root ∧
    a.fee ≤ st.pool.denomination ∧
    a.fee ≤ truncU64 (st.pool.denomination * st.pool.maxFeeBasisPoints / 10000) ∧
    st.pool.minWithdrawalAmount ≤ st.pool.denomination - a.fee := by
  unfold withdraw at h
  split at h
  · exact Except.noConfusion h
  rename_i w hchecks
  obtain ⟨-, hnull, hroot, hfee1, hfee2, hlow, -⟩ :=
    withdrawChecks_ok_facts st a w hchecks
  exact ⟨hnull, ⟨_, withdrawEffects_ok_nullifiers st now a w st' h⟩,
    hroot, hfee1, hfee2, hlow⟩

/-! ## Further withdraw helper lemmas -/

/-- Once a nullifier PDA exists for the hash, withdraw cannot succeed:
either the pool constraint or the init constraint aborts the call. -/
theorem withdraw_present_fails (st : ChainState) (now : Int) (a : WithdrawArgs)
    (hp : nullifierExists st a.nullifierHash = true) :
    exOk (withdraw st now a) = false := by
  cases hact : st.pool.isActive <;>
    simp [withdraw, withdrawChecks, hp, hact, exOk]

/-- A successful withdraw leaves the nullifier PDA for its hash in place. -/
theorem withdraw_ok_inserts (st : ChainState) (now : Int) (a : WithdrawArgs)
    (st' : ChainState) (h : withdraw st now a = .ok st') :
    nullifierExists st' a.nullifierHash = true := by
  obtain ⟨-, ⟨r, hr⟩, -⟩ := withdraw_ok_facts st now a st' h
  simp [nullifierExists, hr]

/-- No withdraw in a sequence all using an already-spent hash succeeds. -/
theorem runWithdrawCount_spent (hsh : Nat) (st : ChainState)
    (calls : List (Int × WithdrawArgs))
    (hcalls : ∀ c ∈ calls, (c : Int × WithdrawArgs).2.nullifierHash = hsh)
    (hex : nullifierExists st hsh = true) :
    (runWithdrawCount st calls).2 = 0 := by
  induction calls generalizing st with
  | nil => rfl
  | cons c rest ih =>
    have hc := hcalls c (List.mem_cons_self _ _)
    have hfail : exOk (withdraw st c.1 c.2) = false :=
      withdraw_present_fails st c.1 c.2 (by rw [hc]; exact hex)
    cases hw : withdraw st c.1 c.2 with
    | ok st' => rw [hw] at hfail; exact absurd hfail (by simp [exOk])
    | error e =>
      simp only [runWithdrawCount, hw]
      exact ih st (fun d hd => hcalls d (List.mem_cons_of_mem _ hd)) hex

/-- In any sequence of withdraw calls all using the same nullifier hash,
at most one succeeds. -/
theorem runWithdrawCount_le_one (hsh : Nat) (st : ChainState)
    (calls : List (Int × WithdrawArgs))
    (hcalls : ∀ c ∈ calls, (c : Int × WithdrawArgs).2.nullifierHash = hsh) :
    (runWithdrawCount st calls).2 ≤ 1 := by
  induction calls generalizing st with
  | nil => simp [runWithdrawCount]
  | cons c rest ih =>
    cases hw : withdraw st c.1 c.2 with
    | error e =>
      simp only [runWithdrawCount, hw]
      exact ih st (fun d hd => hcalls d (List.mem_cons_of_mem _ hd))
    | ok st' =>
      have hc := hcalls c (List.mem_cons_self _ _)
      have hins : nullifierExists st' hsh = true := by
        rw [← hc]; exact withdraw_ok_inserts st c.1 c.2 st' hw
      have hzero := runWithdrawCount_spent hsh st' rest
        (fun d hd => hcalls d (List.mem_cons_of_mem _ hd)) hins
      simp only [runWithdrawCount, hw, hzero]
      omega

/-! ## Claim theorems -/

/-- C1: the claim says a withdrawal succeeds only when the zero-knowledge
proof verifies against the verifying key with public inputs [root,
nullifierHash, recipient, relayer, fee], failing with InvalidProof
otherwise.  The source however only logs the proof (withdraw.rs:63-70) and
never calls verify_bridge_proof (verifier.rs): in a fully valid
withdrawal context the call succeeds and moves funds for EVERY proof blob
whatsoever, so an invalid proof does not cause InvalidProof. -/
theorem C1_withdraw_ignores_proof :
    ∀ proofData : List Nat,
      withdraw exampleState 5 (exampleArgs proofData 20) = .ok exampleAfter := by
  intro p
  rfl

/-- C2 counterexample: the second withdrawal with the same nullifier hash
fails because the Anchor init constraint on the nullifier PDA
(withdraw.rs:223-234) finds the account already created, an
account-already-in-use failure, not the NullifierAlreadySpent error the
claim names (the handler is_spent check at withdraw.rs:32-35 runs only on
the freshly zero-initialized record and can never fire). -/
theorem C2_counterexample :
    withdraw exampleState 5 (exampleArgs [] 20) = .ok exampleAfter ∧
    withdraw exampleAfter 6 (exampleArgs [] 20) = .error .accountAlreadyInUse ∧
    VeilError.accountAlreadyInUse ≠ VeilError.nullifierAlreadySpent := by
  decide

/-- C2 (amended): for any nullifier hash, at most one withdraw call in
any sequence using that hash succeeds; once the nullifier record exists
every later call aborts in the account phase (with the
account-already-in-use failure when the pool constraint passes) before
any fund movement, and a successful call records the hash, which did not
exist before.  A failing call returns only an error, so it moves no
funds. -/
theorem C2_nullifier_at_most_once :
    (∀ st now a, nullifierExists st a.nullifierHash = true →
      exOk (withdraw st now a) = false) ∧
    (∀ st now a, st.pool.isActive = true →
      nullifierExists st a.nullifierHash = true →
      withdraw st now a = .error .accountAlreadyInUse) ∧
    (∀ st now a st', withdraw st now a = .ok st' →
      nullifierExists st a.nullifierHash = false ∧
      nullifierExists st' a.nullifierHash = true) ∧
    (∀ hsh st calls,
      (∀ c ∈ calls, (c : Int × WithdrawArgs).2.nullifierHash = hsh) →
      (runWithdrawCount st calls).2 ≤ 1) := by
  refine ⟨withdraw_present_fails, ?_, ?_, fun hsh st calls hc => runWithdrawCount_le_one hsh st calls hc⟩
  · intro st now a hact hp
    simp [withdraw, withdrawChecks, hact, hp]
  · intro st now a st' h
    exact ⟨(withdraw_ok_facts st now a st' h).1, withdraw_ok_inserts st now a st' h⟩

/-- C2 witness: a concrete already-spent state on which the second
conjunct fires. -/
theorem C2_witness :
    withdraw exampleSpentState 5 (exampleArgs [] 20) = .error .accountAlreadyInUse :=
  C2_nullifier_at_most_once.2.1 exampleSpentState 5 (exampleArgs [] 20)
    (by decide) (by decide)

/-- C3 counterexample: the claim says withdraw accepts any root within a
bounded retention window of recent roots.  With a retention window
holding the previous root 3 and the current root 7, the source rejects
root 3 with InvalidMerkleRoot even though the spec-side predicate accepts
it: withdraw.rs:26-30 compares against the single current root only. -/
theorem C3_counterexample :
    specIsKnownRoot [3, 7] 3 = true ∧
    (3 : Nat) ≠ exampleState.tree.root ∧
    withdraw exampleState 5 { exampleArgs [] 20 with root := 3 } = .error .invalidMerkleRoot := by
  decide

/-- C3 (amended): withdraw accepts the submitted root only if it equals
the single current tree root, and fails with InvalidMerkleRoot (the
source error for a bad root) on any other root; no retention window of
recent roots exists. -/
theorem C3_root_single_match :
    (∀ st now a st', withdraw st now a = .ok st' → a.root = st.tree.root) ∧
    (∀ st now a, st.pool.isActive = true →
      nullifierExists st a.nullifierHash = false →
      (decide (a.fee > 0) && a.relayer.isNone) = false →
      a.root ≠ st.tree.root →
      withdraw st now a = .error .invalidMerkleRoot) := by
  constructor
  · intro st now a st' h
    exact (withdraw_ok_facts st now a st' h).2.2.1
  · intro st now a hact hnull hrel hroot
    simp [withdraw, withdrawChecks, hact, hnull, hrel, hroot]

/-- C3 witness: the rejection conjunct at a concrete old-root input. -/
theorem C3_witness :
    withdraw exampleState 9 { exampleArgs [] 20 with root := 3 } = .error .invalidMerkleRoot :=
  C3_root_single_match.2 exampleState 9 { exampleArgs [] 20 with root := 3 }
    (by decide) (by decide) (by decide) (by decide)

/-- C4 counterexample: in the scenario pool (denomination 1000, fee cap
200 bp, minimum withdrawal 100) the claim says fee=901 fails with
WithdrawalTooLow; the source checks the fee cap first (withdraw.rs:50-52)
and returns FeeTooHigh, and the claimed outcome never occurs. -/
theorem C4_counterexample :
    withdraw exampleState 5 (exampleArgs [] 901) = .error .feeTooHigh ∧
    VeilError.feeTooHigh ≠ VeilError.withdrawalAmountTooLow := by
  decide

/-- C4 (amended): a withdraw succeeds only if fee ≤ denomination (else
InvalidFeeAmount, from withdraw.rs:39-41), fee ≤ denomination * feeCapBp
/ 10000 (else FeeTooHigh) and denomination - fee ≥ minWithdrawal (else
WithdrawalTooLow); exact boundary equality succeeds.  In the scenario
pool, fee=20 succeeds with net 980 (exampleAfter credits recipient 980
and relayer 20), fee=21 fails FeeTooHigh, and fee=901 also fails
FeeTooHigh, because the fee-cap check precedes the minimum-withdrawal
check; fee=1001 > denomination fails InvalidFeeAmount.  In a pool with
cap 500 bp and minimum 950, fee=50 sits on both boundaries and
succeeds. -/
theorem C4_fee_validation :
    (∀ st now a, exOk (withdraw st now a) = true →
      a.fee ≤ st.pool.denomination ∧
      a.fee ≤ truncU64 (st.pool.denomination * st.pool.maxFeeBasisPoints / 10000) ∧
      st.pool.minWithdrawalAmount ≤ st.pool.denomination - a.fee) ∧
    withdraw exampleState 5 (exampleArgs [] 20) = .ok exampleAfter ∧
    withdraw exampleState 5 (exampleArgs [] 21) = .error .feeTooHigh ∧
    withdraw exampleState 5 (exampleArgs [] 901) = .error .feeTooHigh ∧
    withdraw exampleState 5 (exampleArgs [] 1001) = .error .invalidFeeAmount ∧
    exOk (withdraw exampleState2 5 (exampleArgs [] 50)) = true := by
  refine ⟨?_, by decide, by decide, by decide, by decide, by decide⟩
  intro st now a hok
  cases hw : withdraw st now a with
  | error e => rw [hw] at hok; exact absurd hok (by simp [exOk])
  | ok st' => exact (withdraw_ok_facts st now a st' hw).2.2.2

/-- C4 witness: the only-if conjunct instantiated at the successful
fee-20 scenario call. -/
theorem C4_witness :
    exOk (withdraw exampleState 5 (exampleArgs [] 20)) = true ∧
    ((exampleArgs [] 20).fee ≤ exampleState.pool.denomination ∧
      (exampleArgs [] 20).fee ≤ truncU64 (exampleState.pool.denomination * exampleState.pool.maxFeeBasisPoints / 10000) ∧
      exampleState.pool.minWithdrawalAmount ≤ exampleState.pool.denomination - (exampleArgs [] 20).fee) :=
  ⟨by decide, C4_fee_validation.1 exampleState 5 (exampleArgs [] 20) (by decide)⟩

/-- C5: the claim (and spec section 4.1) says appending a commitment into
a full tree (leafCount = 2^maxDepth) fails deterministically with the
tree-full error.  The deposit handler (deposit.rs:74-95) performs no
capacity check at all: at 2^10 = 1024 leaves a further deposit succeeds,
assigns leaf index 1024 and pushes num_leaves to 1025, violating the
leafCount ≤ 2^maxDepth invariant; the MerkleTreeFull error code exists in
errors.rs but is never raised.  An append at the last free slot (1023)
succeeds as the claim states. -/
theorem C5_deposit_no_capacity_check :
    fullPoolState.tree.numLeaves = 2 ^ fullPoolState.tree.maxDepth ∧
    (deposit fullPoolState 4 99).map (fun r => (r.2, r.1.tree.numLeaves)) = .ok (1024, 1025) ∧
    lastSlotState.tree.numLeaves + 1 = 2 ^ lastSlotState.tree.maxDepth ∧
    (deposit lastSlotState 4 99).map (fun r => (r.2, r.1.tree.numLeaves)) = .ok (1023, 1024) := by
  decide

/-! ## Inbound-transfer helper lemmas -/

/-- Once a processed-VAA PDA exists for the digest, process_incoming
cannot succeed: the init constraint (or an earlier account lookup)
aborts the call. -/
theorem processIncoming_present_fails (st : BridgeState) (vaaHash : Nat)
    (v : Vaa) (now : Int) (hp : processedContains st vaaHash = true) :
    exOk (processIncomingTransfer st vaaHash v now) = false := by
  unfold processIncomingTransfer
  cases hfe : findEmitter st v.emitterChain v.emitterAddress with
  | none => simp [hfe, exOk]
  | some em => simp [hfe, hp, exOk]

/-- A successful process_incoming requires that no processed-VAA PDA
existed for the digest, and pushes exactly one such record. -/
theorem processIncoming_ok_facts (st : BridgeState) (vaaHash : Nat)
    (v : Vaa) (now : Int) (st' : BridgeState)
    (h : processIncomingTransfer st vaaHash v now = .ok st') :
    processedContains st vaaHash = false ∧
    st'.processed = (vaaHash, now) :: st.processed := by
  unfold processIncomingTransfer at h
  split at h
  · exact Except.noConfusion h
  split at h
  · exact Except.noConfusion h
  rename_i hproc
  rw [Bool.not_eq_true] at hproc
  repeat' split at h
  all_goals
    first
      | exact Except.noConfusion h
      | (rw [Except.ok.injEq] at h
         subst h
         exact ⟨hproc, rfl⟩)

/-- C6: an inbound message whose digest already has a ProcessedMessage
record is rejected on every call, in particular on the very next call
after a successful processing, and the record is created exactly once, at
the first successful processing.  The guard is the Anchor init constraint
on the processed_vaa PDA keyed by the VAA hash (bridge.rs:651-659); the
record timestamp write is bridge.rs:333-338.  The local tree append uses
add_leaf, which is absent from src and modelled from spec section 4.1. -/
theorem C6_replay_guard :
    (∀ st vaaHash v now, processedContains st vaaHash = true →
      exOk (processIncomingTransfer st vaaHash v now) = false) ∧
    (∀ st vaaHash v now st', processIncomingTransfer st vaaHash v now = .ok st' →
      processedContains st vaaHash = false ∧
      st'.processed = (vaaHash, now) :: st.processed) ∧
    (∀ st vaaHash v now st' v' now',
      processIncomingTransfer st vaaHash v now = .ok st' →
      exOk (processIncomingTransfer st' vaaHash v' now') = false) := by
  refine ⟨processIncoming_present_fails, processIncoming_ok_facts, ?_⟩
  intro st vaaHash v now st' v' now' h
  obtain ⟨-, hrec⟩ := processIncoming_ok_facts st vaaHash v now st' h
  exact processIncoming_present_fails st' vaaHash v' now'
    (by simp [processedContains, hrec])

/-- C6 witness: the rejection conjunct at a concrete already-processed
digest, next to a concrete successful first processing. -/
theorem C6_witness :
    processedContains exampleBridgeProcessed 500 = true ∧
    exOk (processIncomingTransfer exampleBridgeProcessed 500 exampleVaa 10) = false ∧
    exOk (processIncomingTransfer (exampleBridgeState 10) 500 exampleVaa 9) = true :=
  ⟨by decide, C6_replay_guard.1 exampleBridgeProcessed 500 exampleVaa 10 (by decide), by decide⟩

/-! ## Deposit sequence lemmas -/

/-- A successful deposit returns the old next_index as the leaf index,
increments next_index, and adds exactly the denomination to
total_deposited, leaving the denomination itself unchanged. -/
theorem deposit_ok_facts (st : ChainState) (u c : Nat) (st' : ChainState)
    (idx : Nat) (h : deposit st u c = .ok (st', idx)) :
    idx = st.pool.nextIndex ∧
    st'.pool.nextIndex = st.pool.nextIndex + 1 ∧
    st'.pool.totalDeposited = st.pool.totalDeposited + st.pool.denomination ∧
    st'.pool.denomination = st.pool.denomination := by
  unfold deposit at h
  split at h
  · exact Except.noConfusion h
  split at h
  · exact Except.noConfusion h
  split at h
  · exact Except.noConfusion h
  split at h
  · exact Except.noConfusion h
  rename_i td htd
  split at h
  · exact Except.noConfusion h
  rename_i ni hni
  split at h
  · exact Except.noConfusion h
  rename_i nl hnl
  rw [Except.ok.injEq, Prod.mk.injEq] at h
  obtain ⟨h1, h2⟩ := h
  subst h1
  subst h2
  refine ⟨rfl, ?_, ?_, rfl⟩
  · simpa using (checkedAdd64_some hni)
  · simpa using (checkedAdd64_some htd)

/-- Shifting a range map across a cons. -/
theorem range_map_shift (k n : Nat) :
    (List.range (n + 1)).map (fun i => k + i) =
      k :: (List.range n).map (fun i => k + 1 + i) := by
  rw [List.range_succ_eq_map, List.map_cons, List.map_map]
  refine congrArg₂ List.cons (by omega) (List.map_congr_left ?_)
  intro i _
  simp [Function.comp]
  omega

/-- A successful run of n deposits assigns exactly the indices
nextIndex, nextIndex+1, ..., nextIndex+n-1 and adds denomination * n to
total_deposited. -/
theorem runDeposits_ok_facts (calls : List (Nat × Nat)) (st st' : ChainState)
    (idxs : List Nat) (h : runDeposits st calls = .ok (st', idxs)) :
    idxs = (List.range calls.length).map (fun i => st.pool.nextIndex + i) ∧
    st'.pool.totalDeposited = st.pool.totalDeposited + st.pool.denomination * calls.length ∧
    st'.pool.nextIndex = st.pool.nextIndex + calls.length ∧
    st'.pool.denomination = st.pool.denomination := by
  induction calls generalizing st idxs with
  | nil =>
    unfold runDeposits at h
    rw [Except.ok.injEq, Prod.mk.injEq] at h
    obtain ⟨h1, h2⟩ := h
    subst h1
    subst h2
    simp
  | cons c rest ih =>
    unfold runDeposits at h
    split at h
    · exact Except.noConfusion h
    rename_i st1 idx hdep
    split at h
    · exact Except.noConfusion h
    rename_i stf idxs2 hrun
    rw [Except.ok.injEq, Prod.mk.injEq] at h
    obtain ⟨h1, h2⟩ := h
    subst h1
    subst h2
    obtain ⟨hidx, hni, htd, hden⟩ := deposit_ok_facts st c.1 c.2 st1 idx hdep
    obtain ⟨hidxs, htot, hnext, hdeno⟩ := ih st1 idxs2 hrun
    subst hidx
    refine ⟨?_, ?_, ?_, ?_⟩
    · rw [hidxs, hni, List.length_cons, range_map_shift]
    · rw [htot, htd, hden, List.length_cons, Nat.mul_succ]
      omega
    · rw [hnext, hni, List.length_cons]
      omega
    · rw [hdeno, hden]

/-- C7: starting from a fresh pool (next_index 0, total_deposited 0), a
sequence of n successful deposits is assigned exactly the leaf indices
0, 1, ..., n-1 with no gaps or repeats, and afterwards
pool.totalDeposited equals denomination * n (deposit.rs:74-95). -/
theorem C7_deposit_indices (st : ChainState) (calls : List (Nat × Nat))
    (h0 : st.pool.nextIndex = 0) (h1 : st.pool.totalDeposited = 0)
    (hok : exOk (runDeposits st calls) = true) :
    (runDeposits st calls).map (fun r => r.2) = .ok (List.range calls.length) ∧
    (runDeposits st calls).map (fun r => r.1.pool.totalDeposited) =
      .ok (st.pool.denomination * calls.length) := by
  cases hr : runDeposits st calls with
  | error e => rw [hr] at hok; exact absurd hok (by simp [exOk])
  | ok r =>
    obtain ⟨hidxs, htot, -, -⟩ := runDeposits_ok_facts calls st r.1 r.2 (by rw [hr])
    constructor
    · simp [Except.map, hidxs, h0]
    · simp [Except.map, htot, h1]

/-- C7 witness: three concrete deposits from the example pool get the
indices 0, 1, 2 and a total of 1000 * 3. -/
theorem C7_witness :
    (runDeposits exampleState [(4, 21), (4, 22), (4, 23)]).map (fun r => r.2) =
      .ok (List.range [(4, 21), (4, 22), (4, 23)].length) ∧
    (runDeposits exampleState [(4, 21), (4, 22), (4, 23)]).map (fun r => r.1.pool.totalDeposited) =
      .ok (exampleState.pool.denomination * [(4, 21), (4, 22), (4, 23)].length) :=
  C7_deposit_indices exampleState [(4, 21), (4, 22), (4, 23)]
    (by decide) (by decide) (by decide)

/-! ## Outbound-transfer helper lemmas -/

theorem bridgeFeeRaw_some {a f m : Nat} (h : bridgeFeeRaw a f = some m) :
    m = a * f / 10000 := by
  unfold bridgeFeeRaw at h
  cases hm : checkedMul128 a f with
  | none => rw [hm] at h; exact Option.noConfusion h
  | some p =>
    rw [hm, Option.some_bind] at h
    rw [checkedMul128_some hm] at h
    exact checkedDiv128_some h

theorem initiateFinish_ok_payload (st : BridgeState) (now : Int)
    (a : InitiateArgs) (tokenCfg : TokenCfg) (w : Nat) (led : Ledger)
    (r : BridgeState × List Nat) (h : initiateFinish st now a tokenCfg w led = .ok r) :
    r.2 = outboundPayload w tokenCfg.mint a.destinationChainId
      a.destinationAddress a.commitment a.nonce := by
  unfold initiateFinish at h
  split at h
  · exact Except.noConfusion h
  rw [Except.ok.injEq] at h
  subst h
  rfl

/-- A successful outbound initiation posts exactly the payload built from
the token config found in the registry, with the net amount computed via
the truncating as-u64 cast of floor(amount * feeBp / 10000). -/
theorem initiate_ok_payload (st : BridgeState) (now : Int) (a : InitiateArgs)
    (r : BridgeState × List Nat)
    (h : initiateCrossChainTransfer st now a = .ok r) :
    ∃ t, findTokenConfig st.config a.destinationChainId a.mint = .ok t ∧
      r.2 = outboundPayload
        (a.amount - truncU64 (a.amount * st.config.feeBasisPoints / 10000))
        t.mint a.destinationChainId a.destinationAddress a.commitment a.nonce := by
  unfold initiateCrossChainTransfer at h
  split at h
  · exact Except.noConfusion h
  split at h
  · exact Except.noConfusion h
  rename_i tokenCfg hfind
  split at h
  · exact Except.noConfusion h
  split at h
  · exact Except.noConfusion h
  split at h
  · exact Except.noConfusion h
  rename_i feeRaw hraw
  rw [bridgeFeeRaw_some hraw] at h
  split at h
  · exact Except.noConfusion h
  rename_i w hsub
  obtain ⟨-, hw⟩ := checkedSub64_some hsub
  subst hw
  repeat' split at h
  all_goals
    first
      | exact Except.noConfusion h
      | exact ⟨tokenCfg, hfind, initiateFinish_ok_payload _ _ _ _ _ _ _ h⟩

/-- The outbound payload is always exactly 113 bytes: 1 tag byte, 8 net
amount bytes, 32 mint bytes, 2 + 2 chain id bytes, 32 destination
address bytes, 32 commitment bytes, 4 nonce bytes. -/
theorem outboundPayload_length (net : Nat) (mint : Bytes32) (dc : Nat)
    (da cm : Bytes32) (n : Nat) :
    (outboundPayload net mint dc da cm n).length = 113 := by
  simp [outboundPayload, beBytes, mint.property, da.property, cm.property]

/-- C8 counterexample: with bridge fee at 65535 basis points (the config
field is an unvalidated u16) and amount 2815000000000000000, the call
succeeds although floor(amount * feeBp / 10000) exceeds both 2^64 and the
amount itself: the as-u64 cast at bridge.rs:157-161 truncates the fee to
1358426290448384, so the net amount carried in the message is
2813641573709551616, which is not amount - floor(amount * feeBp / 10000)
as the claim states. -/
theorem C8_counterexample :
    exOk (initiateCrossChainTransfer (exampleBridgeState 65535) 5 (exampleInitArgs overflowAmount)) = true ∧
    (initiateCrossChainTransfer (exampleBridgeState 65535) 5 (exampleInitArgs overflowAmount)).map (fun r => readBE r.2 1 8) = .ok 2813641573709551616 ∧
    overflowAmount - overflowAmount * 65535 / 10000 ≠ 2813641573709551616 ∧
    overflowAmount < overflowAmount * 65535 / 10000 := by
  refine ⟨by decide, by decide, by decide, by decide⟩

/-- C8 (amended): every successful initiate_cross_chain_transfer posts a
message of exactly 113 bytes laid out as [1 byte payloadTag=100][8 bytes
netAmount BE][32 bytes asset mint][2 bytes sourceChainId BE][2 bytes
destChainId BE][32 bytes destAddress][32 bytes commitment][4 bytes nonce
BE], where netAmount = amount - (floor(amount * feeBp / 10000) mod 2^64);
the modulus comes from the as-u64 cast and is the identity whenever
feeBp ≤ 10000. -/
theorem C8_payload_layout (st : BridgeState) (now : Int) (a : InitiateArgs)
    (hok : exOk (initiateCrossChainTransfer st now a) = true) :
    ∃ t, findTokenConfig st.config a.destinationChainId a.mint = .ok t ∧
      (initiateCrossChainTransfer st now a).map (fun r => r.2) =
        .ok (outboundPayload
          (a.amount - truncU64 (a.amount * st.config.feeBasisPoints / 10000))
          t.mint a.destinationChainId a.destinationAddress a.commitment a.nonce) ∧
      (initiateCrossChainTransfer st now a).map (fun r => r.2.length) = .ok 113 := by
  cases hr : initiateCrossChainTransfer st now a with
  | error e => rw [hr] at hok; exact absurd hok (by simp [exOk])
  | ok r =>
    obtain ⟨t, hfind, hpl⟩ := initiate_ok_payload st now a r (by rw [hr])
    exact ⟨t, hfind, by simp [Except.map, hpl], by simp [Except.map, hpl, outboundPayload_length]⟩

/-- C8 witness: the layout conjunct at a concrete 10-bp, amount-1000000
outbound call. -/
theorem C8_witness :
    ∃ t, findTokenConfig (exampleBridgeState 10).config
        (exampleInitArgs 1000000).destinationChainId (exampleInitArgs 1000000).mint = .ok t ∧
      (initiateCrossChainTransfer (exampleBridgeState 10) 5 (exampleInitArgs 1000000)).map (fun r => r.2) =
        .ok (outboundPayload
          ((exampleInitArgs 1000000).amount - truncU64 ((exampleInitArgs 1000000).amount * (exampleBridgeState 10).config.feeBasisPoints / 10000))
          t.mint (exampleInitArgs 1000000).destinationChainId
          (exampleInitArgs 1000000).destinationAddress
          (exampleInitArgs 1000000).commitment (exampleInitArgs 1000000).nonce) ∧
      (initiateCrossChainTransfer (exampleBridgeState 10) 5 (exampleInitArgs 1000000)).map (fun r => r.2.length) = .ok 113 :=
  C8_payload_layout (exampleBridgeState 10) 5 (exampleInitArgs 1000000) (by decide)

/-- C9: in the fee computation of initiate_cross_chain_transfer
(bridge.rs:157-161), for every amount within u64 and fee_basis_points
within u16, the u128 checked_mul returns Some (the product is at most
(2^64-1)(2^16-1) < 2^128) and the checked_div by the nonzero constant
10000 returns Some, so the two unwrap calls can never panic. -/
theorem C9_fee_checked_ops_total (amount feeBp : Nat)
    (h64 : amount ≤ u64Max) (h16 : feeBp ≤ u16Max) :
    checkedMul128 amount feeBp = some (amount * feeBp) ∧
    checkedDiv128 (amount * feeBp) 10000 = some (amount * feeBp / 10000) ∧
    bridgeFeeRaw amount feeBp = some (amount * feeBp / 10000) := by
  have hb : amount * feeBp ≤ u128Max :=
    le_trans (Nat.mul_le_mul h64 h16) (by decide)
  refine ⟨?_, ?_, ?_⟩ <;> simp [checkedMul128, checkedDiv128, bridgeFeeRaw, hb]

/-- C9 witness: the extreme point amount = 2^64 - 1, feeBp = 2^16 - 1. -/
theorem C9_witness :
    bridgeFeeRaw 18446744073709551615 65535 =
      some (18446744073709551615 * 65535 / 10000) :=
  (C9_fee_checked_ops_total 18446744073709551615 65535 (by decide) (by decide)).2.2

end Veil
